import Mathlib

set_option linter.unusedVariables false

/-!
Verification of the NASLib optimizer-core excerpt.

The development shallowly embeds the Python sources
`naslib/optimizers/core/metaclasses.py`, `naslib/utils/utils.py` and
`naslib/benchmarks/nas_predictors/runner.py`:
pure functions become Lean functions over `ℚ`/`ℕ`/`List`, stateful classes
become explicit state records that methods transform, `raise` becomes
`Except`, and Python's `None` becomes an explicit value.  Code of the
repository that is not part of the excerpt (the concrete optimizer
variants) is modelled from the specification and marked as such in its
doc comment.
-/

namespace NASLib

/-- A tensor, modelled by its flat rational contents. -/
abbrev Tensor := List ℚ

/-- A data batch: a pair of input and target tensors. -/
abbrev Batch := Tensor × Tensor

/-- A dict of named training statistics, as returned by an optimizer step. -/
abbrev Stats := List (String × ℚ)

/-- A search-space graph: nodes are operations, edges data flow, plus the
architectural parameters an optimizer may attach. -/
structure Graph where
  nodes : List ℕ
  edges : List (ℕ × ℕ)
  archParams : List ℚ
deriving DecidableEq, Repr, Inhabited

/-- A Python value that is either the distinguished value None or a number. -/
inductive PyValue where
  | none
  | num (q : ℚ)
deriving DecidableEq, Repr

/-- The Python exception raised by the unimplemented base-class methods. -/
inductive PyError where
  | notImplementedError
deriving DecidableEq, Repr

namespace MetaOptimizer

/- The abstract base class for all NAS optimizers
(`naslib/optimizers/core/metaclasses.py`).  The base class carries no
attributes of its own, so its methods are stated over an arbitrary
instance-state type `σ` (the state of whichever subclass `self` is). -/

/-- Base-class method: the body of the abstract method is
`raise NotImplementedError()`. -/
def step (self : σ) (data_train data_val : Batch) : Except PyError (Stats × σ) :=
  .error .notImplementedError

/-- Base-class method: the body of the abstract method is
`raise NotImplementedError()`. -/
def adapt_search_space (self : σ) (search_space : Graph)
    (scope : Option (List String)) : Except PyError σ :=
  .error .notImplementedError

/-- Base-class method: the body of the abstract method is
`raise NotImplementedError()`. -/
def get_final_architecture (self : σ) : Except PyError Graph :=
  .error .notImplementedError

/-- Base-class hook: the body is `pass`, so the call returns None and the
instance is returned unchanged. -/
def new_epoch (self : σ) (epoch : ℤ) : σ × PyValue :=
  (self, .none)

/-- Base-class hook: the body is `pass`. -/
def before_training (self : σ) : σ × PyValue :=
  (self, .none)

/-- Base-class hook: the body is `pass`. -/
def after_training (self : σ) : σ × PyValue :=
  (self, .none)

/-- Base-class method `get_model_size`: the body is `pass`, hence the call
returns None (its docstring only suggests what overrides may compute). -/
def get_model_size (self : σ) : PyValue :=
  .none

end MetaOptimizer

/- ## utils.count_parameters_in_MB -/

/-- A torch model as `count_parameters_in_MB` observes it: the list of
named parameters, each a name together with its dimension sizes. -/
structure PyModel where
  named_parameters : List (String × List ℕ)
deriving DecidableEq, Repr, Inhabited

/-- Whether the character list `pat` occurs at the head of `s`. -/
def charsStartWith : List Char → List Char → Bool
  | _, [] => true
  | [], _ :: _ => false
  | a :: as, b :: bs => a == b && charsStartWith as bs

/-- Whether the character list `pat` occurs contiguously anywhere in `s`
(Python's `pat in s` on strings). -/
def charsContain : List Char → List Char → Bool
  | [], pat => charsStartWith [] pat
  | a :: t, pat => charsStartWith (a :: t) pat || charsContain t pat

/-- Python's substring test `pat in s`. -/
def strContains (s pat : String) : Bool :=
  charsContain s.toList pat.toList

/-- The name fragment that `count_parameters_in_MB` excludes. -/
def auxiliaryFragment : String := "auxiliary"

/-- Embeds `utils.count_parameters_in_MB`: the sum of `np.prod(v.size())`
over the named parameters whose name does not contain "auxiliary",
divided by 1e6. -/
def count_parameters_in_MB (model : PyModel) : ℚ :=
  (((model.named_parameters.filter
        (fun p => !(strContains p.1 auxiliaryFragment))).map
      (fun p => ((p.2.prod : ℕ) : ℚ))).sum) / 1000000

/-- The parameter footprint in megabytes as the spec words it: the sum over
all named parameters whose name does not contain "auxiliary" of the product
of their dimension sizes, divided by 1e6.  Stated separately so that the
code's function can be compared against the spec's description. -/
def specParamFootprintMB (model : PyModel) : ℚ :=
  (((model.named_parameters.filter
        (fun p => !(strContains p.1 auxiliaryFragment))).map
      (fun p => ((p.2.prod : ℕ) : ℚ))).sum) / 1000000

/-- A concrete model with a single 2 x 3 parameter. -/
def exampleModel : PyModel :=
  { named_parameters := [("stem.weight", [2, 3])] }

/- ## utils.get_train_val_loaders: the dataset dispatch -/

/-- The configuration fields `get_train_val_loaders` reads. -/
structure Config where
  data : String
  dataset : String
  seed : ℕ
  train_portion : ℚ
  batch_size : ℕ
deriving DecidableEq, Repr

/-- The error raised by the final else branch of the dataset dispatch. -/
inductive DataError where
  | valueError (msg : String)
deriving DecidableEq, Repr

/-- The branch of `get_train_val_loaders` selected for a recognized dataset
name.  Each constructor stands for the loader-construction code of one
if/elif arm. -/
inductive DatasetBranch where
  | cifar10
  | cifar100
  | svhn
  | imageNet16_120
  | scifar100
  | ninapro
  | jigsaw
  | clsObject
  | clsScene
  | autoencoder
  | segmentsemantic
  | normal
  | roomLayout
deriving DecidableEq, Repr

/-- Embeds the dataset dispatch of `utils.get_train_val_loaders`: the chain
of if/elif tests on `config.dataset` ending in
`raise ValueError("Unknown dataset: " + dataset)`.  The loader construction
inside each arm is torchvision/file I/O (an external collaborator per the
spec) and is abstracted to the branch that was selected; the dispatch
happens before any DataLoader is built. -/
def get_train_val_loaders (config : Config) : Except DataError DatasetBranch :=
  let dataset := config.dataset
  if dataset = "cifar10" then .ok .cifar10
  else if dataset = "cifar100" then .ok .cifar100
  else if dataset = "svhn" then .ok .svhn
  else if dataset = "ImageNet16-120" then .ok .imageNet16_120
  else if dataset = "scifar100" then .ok .scifar100
  else if dataset = "ninapro" then .ok .ninapro
  else if dataset = "jigsaw" then .ok .jigsaw
  else if dataset = "class_object" then .ok .clsObject
  else if dataset = "class_scene" then .ok .clsScene
  else if dataset = "autoencoder" then .ok .autoencoder
  else if dataset = "segmentsemantic" then .ok .segmentsemantic
  else if dataset = "normal" then .ok .normal
  else if dataset = "room_layout" then .ok .roomLayout
  else .error (.valueError ("Unknown dataset: " ++ dataset))

/-- The dataset names recognized by the dispatch, in source order. -/
def recognizedDatasets : List String :=
  ["cifar10", "cifar100", "svhn", "ImageNet16-120", "scifar100", "ninapro",
   "jigsaw", "class_object", "class_scene", "autoencoder", "segmentsemantic",
   "normal", "room_layout"]

/-- A config whose dataset name is unrecognized. -/
def cfgUnknown : Config :=
  { data := "", dataset := "foo", seed := 0, train_portion := 1/2, batch_size := 64 }

/-- A config with a recognized dataset name. -/
def cfgCifar10 : Config :=
  { data := "", dataset := "cifar10", seed := 0, train_portion := 1/2, batch_size := 64 }

/- ## utils.set_seed -/

/-- The seed state of the libraries `set_seed` touches: numpy, the python
`random` module and torch (the cudnn flags it sets on CUDA machines are
carried as one boolean). -/
structure LibSeeds where
  numpy_seed : ℕ
  random_seed : ℕ
  torch_seed : ℕ
  cudnn_deterministic : Bool
deriving DecidableEq, Repr

/-- Embeds `utils.set_seed`: seeds numpy, random and torch with the same
seed and puts cudnn in deterministic mode. -/
def set_seed (seed : ℕ) : LibSeeds :=
  { numpy_seed := seed, random_seed := seed, torch_seed := seed,
    cudnn_deterministic := true }

/- ## utils.generate_kfold -/

/-- The list `fold_indices` built inside `utils.generate_kfold`:
the first k-1 folds are the consecutive slices
`indices[i*fold_size : (i+1)*fold_size]` of `indices = range(n)` with
`fold_size = n // k`, and the last fold is the tail
`indices[(k-1)*fold_size :]`. -/
def kfold_folds (n k : ℕ) : List (List ℕ) :=
  let indices := List.range n
  let fold_size := n / k
  ((List.range (k - 1)).map
      (fun i => (indices.drop (i * fold_size)).take fold_size))
    ++ [indices.drop ((k - 1) * fold_size)]

/-- The list returned by `utils.generate_kfold` once the assert has passed:
for each i < k the pair of the concatenation of all folds except fold i
(the training indices) and fold i itself (the validation indices). -/
def kfold_pairs (n k : ℕ) : List (List ℕ × List ℕ) :=
  let fold_indices := kfold_folds n k
  (List.range k).map (fun i =>
    ((((List.range k).filter (fun j => j != i)).map
        (fun j => fold_indices.getD j [])).flatten,
     fold_indices.getD i []))

/-- Embeds `utils.generate_kfold`; the `assert k >= 2` at its head is
modelled as `Option`. -/
def generate_kfold (n k : ℕ) : Option (List (List ℕ × List ℕ)) :=
  if 2 ≤ k then some (kfold_pairs n k) else none

/-- The training-index list of pair i of `generate_kfold n k`. -/
def kfold_train (n k i : ℕ) : List ℕ :=
  (((List.range k).filter (fun j => j != i)).map
      (fun j => (kfold_folds n k).getD j [])).flatten

/-- The length of fold j of `kfold_folds n k`: the first k-1 folds have
n / k entries, the last one the remaining n - (k-1)*(n / k). -/
def foldLen (n k j : ℕ) : ℕ :=
  if j = k - 1 then n - (k - 1) * (n / k) else n / k

/-- Validity of one (train, validation) pair: the two index sets are
disjoint and together are exactly the set 0, ..., n-1. -/
def kfoldPairOk (n : ℕ) (p : List ℕ × List ℕ) : Prop :=
  p.1.toFinset ∩ p.2.toFinset = ∅ ∧ p.1.toFinset ∪ p.2.toFinset = Finset.range n

/-- Validity of the whole k-fold split list, exactly as the claim states
it: k pairs, each pair partitioning 0, ..., n-1, the first k-1 validation
folds of size n / k and the last of size n - (k-1)*(n / k). -/
def kfoldOk (n k : ℕ) (l : List (List ℕ × List ℕ)) : Prop :=
  l.length = k ∧
  (∀ i, i < k → kfoldPairOk n (l.getD i ([], []))) ∧
  (∀ i, i < k - 1 → (l.getD i ([], [])).2.length = n / k) ∧
  (l.getD (k - 1) ([], [])).2.length = n - (k - 1) * (n / k)

/- ## utils.cross_validation -/

/-- The predictor interface `cross_validation` uses: `fit` on training
inputs and targets produces a fitted predictor state, which `query` turns
into one prediction per queried input (the source's ensemble-mean case is
folded into `query`, and the score metrics are scipy/sklearn statistics —
external collaborators per the spec — so both stay abstract). -/
structure Predictor (α M : Type) where
  fit : List α → List ℚ → M
  query : M → List α → List ℚ

/-- Embeds `utils.cross_validation`: for each split pair the code builds
`xtrain_i`, `ytrain_i`, `xval_i`, `yval_i` — all four indexed by the
`train_indices` component, exactly as in the source — fits the predictor,
queries it, scores the predictions, and returns `np.mean` of the scores. -/
def cross_validation {α M : Type} [Inhabited α] (xtrain : List α) (ytrain : List ℚ)
    (predictor : Predictor α M) (split_indices : List (List ℕ × List ℕ))
    (score_metric : List ℚ → List ℚ → ℚ) : ℚ :=
  let validation_score := split_indices.map (fun s =>
    let train_indices := s.1
    let xtrain_i := train_indices.map (fun j => xtrain.getD j default)
    let ytrain_i := train_indices.map (fun j => ytrain.getD j 0)
    let xval_i := train_indices.map (fun j => xtrain.getD j default)
    let yval_i := train_indices.map (fun j => ytrain.getD j 0)
    let fitted := predictor.fit xtrain_i ytrain_i
    let ypred_i := predictor.query fitted xval_i
    score_metric yval_i ypred_i)
  validation_score.sum / validation_score.length

/- ## utils.NamedAverageMeter and utils.AverageMeter -/

/-- The attribute state of a `utils.NamedAverageMeter` instance. -/
structure NamedAverageMeter where
  name : String
  fmt : String
  val : ℚ
  avg : ℚ
  sum : ℚ
  count : ℚ
deriving DecidableEq, Repr

namespace NamedAverageMeter

/-- Embeds `NamedAverageMeter.reset`. -/
def reset (m : NamedAverageMeter) : NamedAverageMeter :=
  { m with val := 0, avg := 0, sum := 0, count := 0 }

/-- Embeds `NamedAverageMeter.update(val, n)`: `sum += val * n`,
`count += n`, `avg = sum / count` (and `val` is recorded). -/
def update (m : NamedAverageMeter) (v : ℚ) (n : ℕ) : NamedAverageMeter :=
  let s := m.sum + v * n
  let c := m.count + n
  { m with val := v, sum := s, count := c, avg := s / c }

/-- Runs a sequence of `update` calls. -/
def runUpdates (m : NamedAverageMeter) : List (ℚ × ℕ) → NamedAverageMeter
  | [] => m
  | (v, n) :: rest => runUpdates (update m v n) rest

/-- No `update` in the sequence divides by zero: before each `avg = sum /
count` assignment the freshly incremented count is nonzero. -/
def updatesSafe (m : NamedAverageMeter) : List (ℚ × ℕ) → Prop
  | [] => True
  | (v, n) :: rest => (m.count + (n : ℚ) ≠ 0) ∧ updatesSafe (update m v n) rest

end NamedAverageMeter

/-- The attribute state of a `utils.AverageMeter` instance. -/
structure AverageMeter where
  avg : ℚ
  sum : ℚ
  cnt : ℚ
deriving DecidableEq, Repr

namespace AverageMeter

/-- Embeds `AverageMeter.reset`. -/
def reset (m : AverageMeter) : AverageMeter :=
  { m with avg := 0, sum := 0, cnt := 0 }

/-- Embeds `AverageMeter.update(val, n)`: `sum += val * n`, `cnt += n`,
`avg = sum / cnt`. -/
def update (m : AverageMeter) (v : ℚ) (n : ℕ) : AverageMeter :=
  let s := m.sum + v * n
  let c := m.cnt + n
  { m with sum := s, cnt := c, avg := s / c }

/-- Runs a sequence of `update` calls. -/
def runUpdates (m : AverageMeter) : List (ℚ × ℕ) → AverageMeter
  | [] => m
  | (v, n) :: rest => runUpdates (update m v n) rest

/-- No `update` in the sequence divides by zero. -/
def updatesSafe (m : AverageMeter) : List (ℚ × ℕ) → Prop
  | [] => True
  | (v, n) :: rest => (m.cnt + (n : ℚ) ≠ 0) ∧ updatesSafe (update m v n) rest

end AverageMeter

/- ## The optimizer variants, modelled from the spec -/

namespace VariantModel

/-- Modelled from the spec: the numeric-optimization object for the op
weights (`torch.optim.Optimizer` is external), reduced to its
configuration. -/
structure OpOptimizer where
  learning_rate : ℚ
deriving DecidableEq, Repr, Inhabited

/-- Modelled from the spec: the private state of an optimizer variant —
the address of its adapted private search-space copy, the numeric op
optimizer it sets up, the scope it controls, and its population/history. -/
structure OptimizerState where
  adapted_space : Option ℕ
  op_optimizer : Option OpOptimizer
  scope : Option (List String)
  history : List Stats
deriving DecidableEq, Repr, Inhabited

/-- The store of live search-space objects; an address is an index.  The
heap is explicit so that aliasing of the caller's object is observable. -/
abbrev Heap := List Graph

/-- Modelled from the spec: the concrete optimizer variants (Bananas,
OneShotNASOptimizer, RandomNASOptimizer) are not part of the excerpt.  Per
the spec's contract for `adapt_search_space`, the variant deep-copies the
caller's search space, applies its own mutation (adding architectural
parameters, discretizing, ...) to the private copy only — `mutate` stands
for the variant-specific mutation — stores the copy and sets up the
numeric optimizer used for the op-weight updates. -/
def adapt_search_space (mutate : Graph → Graph) (h : Heap)
    (self : OptimizerState) (search_space : ℕ)
    (scope : Option (List String)) : Heap × OptimizerState :=
  let copy := h.getD search_space default
  (h ++ [mutate copy],
   { self with
      adapted_space := some h.length,
      op_optimizer := some { learning_rate := 1 / 40 },
      scope := scope })

/-- Modelled from the spec: `get_op_optimizer` returns the numeric
optimizer the variant set up at adaptation time. -/
def get_op_optimizer (self : OptimizerState) : Option OpOptimizer :=
  self.op_optimizer

/-- A simple concrete loss of a batch, used by the modelled step. -/
def batchLoss (b : Batch) : ℚ :=
  ((b.1.zip b.2).map (fun p => (p.1 - p.2) ^ 2)).sum

/-- Modelled from the spec: `step` executes exactly one search iteration —
it reads the two batches, mutates only the optimizer's own internal state
(appending to its history) and returns a dict of named statistics. -/
def step (self : OptimizerState) (data_train data_val : Batch) :
    Stats × OptimizerState :=
  let s := [("train_loss", batchLoss data_train), ("val_loss", batchLoss data_val)]
  (s, { self with history := self.history ++ [s] })

/-- One call the trainer may make to the optimizer after adaptation. -/
inductive TrainerOp where
  | stepOp (data_train data_val : Batch)
  | newEpoch (epoch : ℤ)
  | beforeTraining
  | afterTraining

/-- Applies one trainer call to the optimizer state; the hooks are the
base-class defaults. -/
def applyOp (self : OptimizerState) : TrainerOp → OptimizerState
  | .stepOp dt dv => (step self dt dv).2
  | .newEpoch e => (MetaOptimizer.new_epoch self e).1
  | .beforeTraining => (MetaOptimizer.before_training self).1
  | .afterTraining => (MetaOptimizer.after_training self).1

/-- Applies a sequence of trainer calls. -/
def applyOps (self : OptimizerState) (ops : List TrainerOp) : OptimizerState :=
  ops.foldl applyOp self

/-- The state of one search run, as the benchmark runner sets it up. -/
structure RunState where
  rng : LibSeeds
  heap : Heap
  opt : OptimizerState
  data : List Batch
deriving Repr

/-- Modelled from the spec and the runner: `set_seed(config.seed)` is
called, the search space is constructed, and the optimizer adapts it
before the trainer starts stepping. -/
def initRun (seed : ℕ) (search_space : Graph) (data : List Batch) : RunState :=
  let rng := set_seed seed
  let h0 : Heap := [search_space]
  let adapted := adapt_search_space id h0 default 0 none
  { rng := rng, heap := adapted.1, opt := adapted.2, data := data }

/-- Runs up to n successive `step` calls, one batch each, collecting the
returned statistics dicts in order. -/
def runStats : ℕ → RunState → List Stats
  | 0, _ => []
  | n + 1, st =>
    match st.data with
    | [] => []
    | b :: rest =>
      let r := step st.opt b b
      r.1 :: runStats n { st with opt := r.2, data := rest }

end VariantModel

/- ## Helper lemmas -/

theorem applyOp_preserves_op_optimizer (self : VariantModel.OptimizerState)
    (op : VariantModel.TrainerOp) :
    (VariantModel.applyOp self op).op_optimizer = self.op_optimizer := by
  cases op <;> rfl

theorem applyOps_preserves_op_optimizer (ops : List VariantModel.TrainerOp)
    (self : VariantModel.OptimizerState) :
    (VariantModel.applyOps self ops).op_optimizer = self.op_optimizer := by
  induction ops generalizing self with
  | nil => rfl
  | cons op rest ih =>
      show (VariantModel.applyOps (VariantModel.applyOp self op) rest).op_optimizer
        = self.op_optimizer
      rw [ih, applyOp_preserves_op_optimizer]

/-- A concrete search-space graph used by witnesses. -/
def exGraph : Graph :=
  { nodes := [0, 1], edges := [(0, 1)], archParams := [] }

/- ## Claims about the MetaOptimizer base class -/

/-- Claim C3: in the MetaOptimizer base class, each required operation —
step, adapt_search_space, get_final_architecture — raises
NotImplementedError when invoked without being overridden; the base class
provides no default behaviour for these operations. -/
theorem base_required_ops_raise (σ : Type) (self : σ) (dt dv : Batch)
    (ss : Graph) (scope : Option (List String)) :
    MetaOptimizer.step self dt dv = .error .notImplementedError ∧
    MetaOptimizer.adapt_search_space self ss scope = .error .notImplementedError ∧
    MetaOptimizer.get_final_architecture self = .error .notImplementedError :=
  ⟨rfl, rfl, rfl⟩

/-- Claim C4: the default base-class hooks new_epoch, before_training and
after_training are no-ops — for every optimizer state and every integer
epoch they return None and leave the state completely unchanged. -/
theorem base_hooks_noop (σ : Type) (self : σ) (epoch : ℤ) :
    MetaOptimizer.new_epoch self epoch = (self, PyValue.none) ∧
    MetaOptimizer.before_training self = (self, PyValue.none) ∧
    MetaOptimizer.after_training self = (self, PyValue.none) :=
  ⟨rfl, rfl, rfl⟩

/-- Claim C5, counterexample: the base-class default of get_model_size has
body pass, so it returns None rather than the megabyte figure — at the
concrete model exampleModel the claimed equality fails. -/
theorem get_model_size_default_not_MB :
    @MetaOptimizer.get_model_size Unit () = PyValue.none ∧
    ¬ @MetaOptimizer.get_model_size Unit ()
        = PyValue.num (count_parameters_in_MB exampleModel) :=
  ⟨rfl, fun hcon => nomatch hcon⟩

/-- Claim C5, amended: count_parameters_in_MB equals the sum over all
named parameters whose name does not contain "auxiliary" of the product of
their dimension sizes divided by 1e6, and the base-class default of
get_model_size is a stub that returns None. -/
theorem count_parameters_MB_spec (m : PyModel) (σ : Type) (self : σ) :
    count_parameters_in_MB m = specParamFootprintMB m ∧
    MetaOptimizer.get_model_size self = PyValue.none :=
  ⟨rfl, rfl⟩

/- ## Claims about the optimizer variants (spec-modelled) -/

/-- Claim C1: adapt_search_space mutates only a private copy of the search
space — every heap cell that existed before the call, in particular the
caller's search-space object, is equal to what it was before the call,
whatever the variant's mutation is. -/
theorem adapt_search_space_preserves_original
    (mutate : Graph → Graph) (h : VariantModel.Heap)
    (self : VariantModel.OptimizerState) (ss : ℕ)
    (scope : Option (List String)) (a : ℕ) (ha : a < h.length) :
    ((VariantModel.adapt_search_space mutate h self ss scope).1).getD a default
      = h.getD a default := by
  simp only [VariantModel.adapt_search_space, List.getD_eq_getElem?_getD]
  rw [List.getElem?_append_left ha]

/-- Witness for claim C1 at a one-cell heap and a concrete mutation. -/
theorem adapt_search_space_preserves_original_witness :
    0 < ([exGraph] : VariantModel.Heap).length ∧
    ((VariantModel.adapt_search_space (fun g => { g with archParams := [1] })
        [exGraph] default 0 none).1).getD 0 default
      = ([exGraph] : VariantModel.Heap).getD 0 default :=
  ⟨by decide,
   adapt_search_space_preserves_original (fun g => { g with archParams := [1] })
     [exGraph] default 0 none 0 (by decide)⟩

/-- Claim C2: once adapt_search_space has been called, every subsequent
get_op_optimizer call — after any sequence of trainer calls — returns a
non-null numeric optimizer. -/
theorem get_op_optimizer_some_after_adapt
    (mutate : Graph → Graph) (h : VariantModel.Heap)
    (self : VariantModel.OptimizerState) (ss : ℕ)
    (scope : Option (List String)) (ops : List VariantModel.TrainerOp) :
    (VariantModel.get_op_optimizer
        (VariantModel.applyOps
          (VariantModel.adapt_search_space mutate h self ss scope).2 ops)).isSome
      = true := by
  simp only [VariantModel.get_op_optimizer]
  rw [applyOps_preserves_op_optimizer]
  rfl

/-- Claim C7: given a fixed seed applied via set_seed, two runs of the same
optimizer over the same search space and the same data produce identical
sequences of statistics dicts returned by the successive step calls. -/
theorem run_deterministic (seed1 seed2 : ℕ) (space : Graph)
    (data : List Batch) (n : ℕ) (hseed : seed1 = seed2) :
    VariantModel.runStats n (VariantModel.initRun seed1 space data)
      = VariantModel.runStats n (VariantModel.initRun seed2 space data) := by
  subst hseed
  rfl

/-- Witness for claim C7 at seed 42 on a two-batch run. -/
theorem run_deterministic_witness :
    (42 = 42) ∧
    VariantModel.runStats 2 (VariantModel.initRun 42 exGraph [([1], [2])])
      = VariantModel.runStats 2 (VariantModel.initRun 42 exGraph [([1], [2])]) :=
  ⟨rfl, run_deterministic 42 42 exGraph [([1], [2])] 2 rfl⟩

/- ## Claim about cross_validation -/

/-- Claim C9: the validation_indices component of each split pair has no
effect on the mean validation score cross_validation returns — replacing
it by anything leaves the result unchanged, because xval_i and yval_i are
selected by train_indices. -/
theorem cross_validation_ignores_validation_indices
    {α M : Type} [Inhabited α] (xtrain : List α) (ytrain : List ℚ)
    (predictor : Predictor α M) (split_indices : List (List ℕ × List ℕ))
    (score_metric : List ℚ → List ℚ → ℚ)
    (f : List ℕ × List ℕ → List ℕ) :
    cross_validation xtrain ytrain predictor
        (split_indices.map (fun s => (s.1, f s))) score_metric
      = cross_validation xtrain ytrain predictor split_indices score_metric := by
  unfold cross_validation
  rw [List.map_map]
  rfl

/- ## Claim about the dataset dispatch -/

/-- Claim C6: for every configuration whose dataset name is not one of the
thirteen recognized names, get_train_val_loaders fails immediately with a
ValueError naming the unknown dataset, before constructing any loader; for
every recognized name the dispatch raises no such error. -/
theorem get_train_val_loaders_dispatch (config : Config) :
    (config.dataset ∉ recognizedDatasets →
        get_train_val_loaders config
          = .error (.valueError ("Unknown dataset: " ++ config.dataset))) ∧
    (config.dataset ∈ recognizedDatasets →
        ∃ b, get_train_val_loaders config = .ok b) := by
  constructor
  · intro hnot
    simp only [recognizedDatasets, List.mem_cons, List.not_mem_nil, or_false,
      not_or] at hnot
    obtain ⟨h1, h2, h3, h4, h5, h6, h7, h8, h9, h10, h11, h12, h13⟩ := hnot
    simp [get_train_val_loaders, h1, h2, h3, h4, h5, h6, h7, h8, h9, h10, h11,
      h12, h13]
  · intro hmem
    simp only [recognizedDatasets, List.mem_cons, List.not_mem_nil,
      or_false] at hmem
    rcases hmem with h|h|h|h|h|h|h|h|h|h|h|h|h <;>
      exact ⟨_, by simp only [get_train_val_loaders]; rw [h]; rfl⟩

/-- Witness for claim C6: the unknown name "foo" is rejected with the
ValueError, the recognized name "cifar10" is dispatched. -/
theorem get_train_val_loaders_dispatch_witness :
    (cfgUnknown.dataset ∉ recognizedDatasets ∧
      get_train_val_loaders cfgUnknown
        = .error (.valueError ("Unknown dataset: " ++ cfgUnknown.dataset))) ∧
    (cfgCifar10.dataset ∈ recognizedDatasets ∧
      ∃ b, get_train_val_loaders cfgCifar10 = .ok b) :=
  ⟨⟨by decide, (get_train_val_loaders_dispatch cfgUnknown).1 (by decide)⟩,
   ⟨by decide, (get_train_val_loaders_dispatch cfgCifar10).2 (by decide)⟩⟩

/- ## Claim about the average meters -/

theorem nam_runUpdates_sum (l : List (ℚ × ℕ)) :
    ∀ m : NamedAverageMeter,
      (NamedAverageMeter.runUpdates m l).sum
        = m.sum + (l.map (fun p => p.1 * (p.2 : ℚ))).sum := by
  induction l with
  | nil => intro m; simp [NamedAverageMeter.runUpdates]
  | cons p rest ih =>
      intro m
      obtain ⟨v, n⟩ := p
      show (NamedAverageMeter.runUpdates (NamedAverageMeter.update m v n) rest).sum = _
      rw [ih]
      simp [NamedAverageMeter.update]
      ring

theorem nam_runUpdates_count (l : List (ℚ × ℕ)) :
    ∀ m : NamedAverageMeter,
      (NamedAverageMeter.runUpdates m l).count
        = m.count + (l.map (fun p => ((p.2 : ℕ) : ℚ))).sum := by
  induction l with
  | nil => intro m; simp [NamedAverageMeter.runUpdates]
  | cons p rest ih =>
      intro m
      obtain ⟨v, n⟩ := p
      show (NamedAverageMeter.runUpdates (NamedAverageMeter.update m v n) rest).count = _
      rw [ih]
      simp [NamedAverageMeter.update]
      ring

theorem nam_runUpdates_avg :
    ∀ (l : List (ℚ × ℕ)) (m : NamedAverageMeter), l ≠ [] →
      (NamedAverageMeter.runUpdates m l).avg
        = (NamedAverageMeter.runUpdates m l).sum
            / (NamedAverageMeter.runUpdates m l).count
  | [], _, hne => absurd rfl hne
  | [(v, n)], m, _ => rfl
  | (v, n) :: q :: rest, m, _ =>
      nam_runUpdates_avg (q :: rest) (NamedAverageMeter.update m v n) (by simp)

theorem nam_updatesSafe (l : List (ℚ × ℕ)) :
    ∀ m : NamedAverageMeter, (∀ p ∈ l, 1 ≤ p.2) → 0 ≤ m.count →
      NamedAverageMeter.updatesSafe m l := by
  induction l with
  | nil => intro m _ _; trivial
  | cons p rest ih =>
      intro m hall hc
      obtain ⟨v, n⟩ := p
      have hn : 1 ≤ n := hall (v, n) (by simp)
      have hnq : (1 : ℚ) ≤ (n : ℚ) := by exact_mod_cast hn
      refine ⟨by linarith, ?_⟩
      apply ih
      · intro p hp; exact hall p (by simp [hp])
      · show 0 ≤ (NamedAverageMeter.update m v n).count
        simp [NamedAverageMeter.update]
        linarith

theorem am_runUpdates_sum (l : List (ℚ × ℕ)) :
    ∀ m : AverageMeter,
      (AverageMeter.runUpdates m l).sum
        = m.sum + (l.map (fun p => p.1 * (p.2 : ℚ))).sum := by
  induction l with
  | nil => intro m; simp [AverageMeter.runUpdates]
  | cons p rest ih =>
      intro m
      obtain ⟨v, n⟩ := p
      show (AverageMeter.runUpdates (AverageMeter.update m v n) rest).sum = _
      rw [ih]
      simp [AverageMeter.update]
      ring

theorem am_runUpdates_cnt (l : List (ℚ × ℕ)) :
    ∀ m : AverageMeter,
      (AverageMeter.runUpdates m l).cnt
        = m.cnt + (l.map (fun p => ((p.2 : ℕ) : ℚ))).sum := by
  induction l with
  | nil => intro m; simp [AverageMeter.runUpdates]
  | cons p rest ih =>
      intro m
      obtain ⟨v, n⟩ := p
      show (AverageMeter.runUpdates (AverageMeter.update m v n) rest).cnt = _
      rw [ih]
      simp [AverageMeter.update]
      ring

theorem am_runUpdates_avg :
    ∀ (l : List (ℚ × ℕ)) (m : AverageMeter), l ≠ [] →
      (AverageMeter.runUpdates m l).avg
        = (AverageMeter.runUpdates m l).sum / (AverageMeter.runUpdates m l).cnt
  | [], _, hne => absurd rfl hne
  | [(v, n)], m, _ => rfl
  | (v, n) :: q :: rest, m, _ =>
      am_runUpdates_avg (q :: rest) (AverageMeter.update m v n) (by simp)

theorem am_updatesSafe (l : List (ℚ × ℕ)) :
    ∀ m : AverageMeter, (∀ p ∈ l, 1 ≤ p.2) → 0 ≤ m.cnt →
      AverageMeter.updatesSafe m l := by
  induction l with
  | nil => intro m _ _; trivial
  | cons p rest ih =>
      intro m hall hc
      obtain ⟨v, n⟩ := p
      have hn : 1 ≤ n := hall (v, n) (by simp)
      have hnq : (1 : ℚ) ≤ (n : ℚ) := by exact_mod_cast hn
      refine ⟨by linarith, ?_⟩
      apply ih
      · intro p hp; exact hall p (by simp [hp])
      · show 0 ≤ (AverageMeter.update m v n).cnt
        simp [AverageMeter.update]
        linarith

/-- The invariant claim C10 states for both meter classes after a reset
followed by the update sequence l. -/
def meterInvariants (l : List (ℚ × ℕ)) (m0 : NamedAverageMeter)
    (a0 : AverageMeter) : Prop :=
  ((NamedAverageMeter.runUpdates m0.reset l).count
      = (l.map (fun p => ((p.2 : ℕ) : ℚ))).sum ∧
   (NamedAverageMeter.runUpdates m0.reset l).sum
      = (l.map (fun p => p.1 * (p.2 : ℚ))).sum ∧
   (NamedAverageMeter.runUpdates m0.reset l).avg
      = (NamedAverageMeter.runUpdates m0.reset l).sum
          / (NamedAverageMeter.runUpdates m0.reset l).count ∧
   NamedAverageMeter.updatesSafe m0.reset l) ∧
  ((AverageMeter.runUpdates a0.reset l).cnt
      = (l.map (fun p => ((p.2 : ℕ) : ℚ))).sum ∧
   (AverageMeter.runUpdates a0.reset l).sum
      = (l.map (fun p => p.1 * (p.2 : ℚ))).sum ∧
   (AverageMeter.runUpdates a0.reset l).avg
      = (AverageMeter.runUpdates a0.reset l).sum
          / (AverageMeter.runUpdates a0.reset l).cnt ∧
   AverageMeter.updatesSafe a0.reset l)

/-- Claim C10: for NamedAverageMeter and AverageMeter, after reset followed
by any non-empty sequence of update calls with every n at least 1, the
count (resp. cnt) equals the sum of the n arguments, the sum equals the
sum of val*n over the calls, avg equals sum divided by count, and no
update in the sequence divides by zero. -/
theorem meters_invariant (l : List (ℚ × ℕ)) (m0 : NamedAverageMeter)
    (a0 : AverageMeter) (hne : l ≠ []) (hall : ∀ p ∈ l, 1 ≤ p.2) :
    meterInvariants l m0 a0 := by
  refine ⟨⟨?_, ?_, ?_, ?_⟩, ⟨?_, ?_, ?_, ?_⟩⟩
  · rw [nam_runUpdates_count]
    show (0 : ℚ) + _ = _
    rw [zero_add]
  · rw [nam_runUpdates_sum]
    show (0 : ℚ) + _ = _
    rw [zero_add]
  · exact nam_runUpdates_avg l m0.reset hne
  · exact nam_updatesSafe l m0.reset hall (le_refl 0)
  · rw [am_runUpdates_cnt]
    show (0 : ℚ) + _ = _
    rw [zero_add]
  · rw [am_runUpdates_sum]
    show (0 : ℚ) + _ = _
    rw [zero_add]
  · exact am_runUpdates_avg l a0.reset hne
  · exact am_updatesSafe l a0.reset hall (le_refl 0)

/-- A concrete named meter for the witness. -/
def exMeter : NamedAverageMeter :=
  { name := "loss", fmt := ":f", val := 0, avg := 0, sum := 0, count := 0 }

/-- A concrete plain meter for the witness. -/
def exAvgMeter : AverageMeter :=
  { avg := 0, sum := 0, cnt := 0 }

/-- A concrete non-empty update sequence with every n at least 1. -/
def exUpdates : List (ℚ × ℕ) := [(3, 2), (1, 1)]

/-- Witness for claim C10 on a concrete two-update sequence. -/
theorem meters_invariant_witness :
    (exUpdates ≠ [] ∧ ∀ p ∈ exUpdates, 1 ≤ p.2) ∧
    meterInvariants exUpdates exMeter exAvgMeter :=
  ⟨⟨by decide, by decide⟩,
   meters_invariant exUpdates exMeter exAvgMeter (by decide) (by decide)⟩

/- ## Claim about generate_kfold -/

theorem range'_drop_eq :
    ∀ (m s n : ℕ), (List.range' s n).drop m = List.range' (s + m) (n - m)
  | 0, s, n => by simp
  | m + 1, s, 0 => by simp
  | m + 1, s, n + 1 => by
      rw [List.range'_succ, List.drop_succ_cons, range'_drop_eq m (s + 1) n]
      have h1 : s + 1 + m = s + (m + 1) := by omega
      have h2 : n - m = n + 1 - (m + 1) := by omega
      rw [h1, h2]

theorem range'_take_eq :
    ∀ (m s n : ℕ), (List.range' s n).take m = List.range' s (min m n)
  | 0, s, n => by simp
  | m + 1, s, 0 => by simp
  | m + 1, s, n + 1 => by
      rw [List.range'_succ, List.take_succ_cons, range'_take_eq m (s + 1) n]
      rw [show min (m + 1) (n + 1) = min m n + 1 from by omega]
      rw [List.range'_succ]

theorem kfold_folds_length (n k : ℕ) (hk : 1 ≤ k) :
    (kfold_folds n k).length = k := by
  simp [kfold_folds]
  omega

theorem kfold_div_mul_le (n k : ℕ) : k * (n / k) ≤ n := by
  calc k * (n / k) = n / k * k := Nat.mul_comm _ _
    _ ≤ n := Nat.div_mul_le_self n k

theorem kfold_folds_getD (n k j : ℕ) (hk : 2 ≤ k) (hj : j < k) :
    (kfold_folds n k).getD j [] = List.range' (j * (n / k)) (foldLen n k j) := by
  have h3 : k * (n / k) ≤ n := kfold_div_mul_le n k
  rw [List.getD_eq_getElem?_getD]
  unfold kfold_folds
  by_cases hj1 : j = k - 1
  · subst hj1
    rw [List.getElem?_append_right (by simp)]
    simp only [List.length_map, List.length_range, Nat.sub_self,
      List.getElem?_cons_zero, Option.getD_some]
    rw [List.range_eq_range', range'_drop_eq]
    simp [foldLen]
  · have hjlt : j < k - 1 := by omega
    rw [List.getElem?_append_left (by simp [hjlt])]
    rw [List.getElem?_map, List.getElem?_range hjlt, Option.map_some',
      Option.getD_some]
    rw [List.range_eq_range', range'_drop_eq, range'_take_eq]
    have h1 : (j + 1) * (n / k) ≤ (k - 1) * (n / k) :=
      Nat.mul_le_mul_right _ (by omega)
    have h2 : (k - 1) * (n / k) ≤ k * (n / k) :=
      Nat.mul_le_mul_right _ (by omega)
    have hb : j * (n / k) + n / k ≤ n := by
      calc j * (n / k) + n / k = (j + 1) * (n / k) := (Nat.succ_mul j _).symm
        _ ≤ n := le_trans h1 (le_trans h2 h3)
    rw [Nat.zero_add, Nat.min_eq_left (Nat.le_sub_of_add_le (by linarith))]
    unfold foldLen
    rw [if_neg hj1]

theorem kfold_folds_mem (n k j x : ℕ) (hk : 2 ≤ k) (hj : j < k) :
    x ∈ (kfold_folds n k).getD j [] ↔
      j * (n / k) ≤ x ∧ x < j * (n / k) + foldLen n k j := by
  rw [kfold_folds_getD n k j hk hj]
  exact List.mem_range'_1

theorem kfold_interval_le (n k j : ℕ) (hk : 2 ≤ k) (hj : j < k) :
    j * (n / k) + foldLen n k j ≤ n := by
  have h3 : k * (n / k) ≤ n := kfold_div_mul_le n k
  have h2 : (k - 1) * (n / k) ≤ k * (n / k) :=
    Nat.mul_le_mul_right _ (by omega)
  unfold foldLen
  by_cases hj1 : j = k - 1
  · rw [if_pos hj1, hj1]
    rw [Nat.add_sub_cancel' (le_trans h2 h3)]
  · rw [if_neg hj1]
    have h1 : (j + 1) * (n / k) ≤ (k - 1) * (n / k) :=
      Nat.mul_le_mul_right _ (by omega)
    calc j * (n / k) + n / k = (j + 1) * (n / k) := (Nat.succ_mul j _).symm
      _ ≤ n := le_trans h1 (le_trans h2 h3)

theorem kfold_folds_cover (n k x : ℕ) (hk : 2 ≤ k) (hx : x < n) :
    ∃ j, j < k ∧ x ∈ (kfold_folds n k).getD j [] := by
  by_cases hcase : x < (k - 1) * (n / k)
  · have hfs : 0 < n / k := by
      rcases Nat.eq_zero_or_pos (n / k) with h0 | h1
      · rw [h0, Nat.mul_zero] at hcase
        omega
      · exact h1
    have hjlt : x / (n / k) < k - 1 := by
      rw [Nat.div_lt_iff_lt_mul hfs]
      exact hcase
    refine ⟨x / (n / k), by omega, ?_⟩
    rw [kfold_folds_mem n k _ x hk (by omega)]
    have hd := Nat.div_add_mod x (n / k)
    have hm := Nat.mod_lt x hfs
    constructor
    · exact Nat.div_mul_le_self x (n / k)
    · have hfold : foldLen n k (x / (n / k)) = n / k := by
        unfold foldLen
        rw [if_neg (by omega)]
      rw [hfold, Nat.mul_comm]
      linarith
  · refine ⟨k - 1, by omega, ?_⟩
    rw [kfold_folds_mem n k (k - 1) x hk (by omega)]
    have h3 : k * (n / k) ≤ n := kfold_div_mul_le n k
    have h2 : (k - 1) * (n / k) ≤ k * (n / k) :=
      Nat.mul_le_mul_right _ (by omega)
    have hfold : foldLen n k (k - 1) = n - (k - 1) * (n / k) := by
      unfold foldLen
      rw [if_pos rfl]
    constructor
    · exact Nat.le_of_not_lt hcase
    · rw [hfold, Nat.add_sub_cancel' (le_trans h2 h3)]
      exact hx

theorem kfold_folds_disjoint_lt (n k i j x : ℕ) (hk : 2 ≤ k) (hj : j < k)
    (hij : i < j)
    (hxi : i * (n / k) ≤ x ∧ x < i * (n / k) + foldLen n k i)
    (hxj : j * (n / k) ≤ x ∧ x < j * (n / k) + foldLen n k j) : False := by
  have hfold : foldLen n k i = n / k := by
    unfold foldLen
    rw [if_neg (by omega)]
  rw [hfold] at hxi
  have hsm : (i + 1) * (n / k) = i * (n / k) + n / k := Nat.succ_mul i _
  have hle : (i + 1) * (n / k) ≤ j * (n / k) :=
    Nat.mul_le_mul_right _ (by omega)
  linarith [hxi.2, hxj.1]

theorem kfold_folds_disjoint (n k i j x : ℕ) (hk : 2 ≤ k) (hi : i < k)
    (hj : j < k) (hij : i ≠ j)
    (hxi : x ∈ (kfold_folds n k).getD i [])
    (hxj : x ∈ (kfold_folds n k).getD j []) : False := by
  rw [kfold_folds_mem n k i x hk hi] at hxi
  rw [kfold_folds_mem n k j x hk hj] at hxj
  rcases Nat.lt_or_ge i j with hlt | hge
  · exact kfold_folds_disjoint_lt n k i j x hk hj hlt hxi hxj
  · exact kfold_folds_disjoint_lt n k j i x hk hi (by omega) hxj hxi

theorem kfold_pairs_getD (n k i : ℕ) (hi : i < k) :
    (kfold_pairs n k).getD i ([], [])
      = (kfold_train n k i, (kfold_folds n k).getD i []) := by
  rw [List.getD_eq_getElem?_getD]
  unfold kfold_pairs kfold_train
  rw [List.getElem?_map, List.getElem?_range hi]
  rfl

theorem kfold_train_mem (n k i x : ℕ) :
    x ∈ kfold_train n k i ↔
      ∃ j, j < k ∧ j ≠ i ∧ x ∈ (kfold_folds n k).getD j [] := by
  unfold kfold_train
  simp only [List.mem_flatten, List.mem_map, List.mem_filter, List.mem_range,
    bne_iff_ne, ne_eq]
  constructor
  · rintro ⟨l, ⟨j, ⟨hjk, hji⟩, rfl⟩, hx⟩
    exact ⟨j, hjk, hji, hx⟩
  · rintro ⟨j, hjk, hji, hx⟩
    exact ⟨(kfold_folds n k).getD j [], ⟨j, ⟨hjk, hji⟩, rfl⟩, hx⟩

/-- Claim C8: for every n and every k at least 2, generate_kfold returns a
list of exactly k pairs of index lists; in each pair the training and
validation index sets are disjoint and their union is exactly the set
0, ..., n-1; each of the first k-1 validation folds has n / k entries and
the last has n - (k-1)*(n / k). -/
theorem generate_kfold_ok (n k : ℕ) (hk : 2 ≤ k) :
    generate_kfold n k = some (kfold_pairs n k) ∧
    kfoldOk n k (kfold_pairs n k) := by
  refine ⟨by unfold generate_kfold; rw [if_pos hk], ?_, ?_, ?_, ?_⟩
  · simp [kfold_pairs]
  · intro i hi
    rw [kfold_pairs_getD n k i hi]
    constructor
    · apply Finset.eq_empty_of_forall_not_mem
      intro x hx
      rw [Finset.mem_inter, List.mem_toFinset, List.mem_toFinset] at hx
      obtain ⟨hxtr, hxval⟩ := hx
      rw [kfold_train_mem] at hxtr
      obtain ⟨j, hjk, hji, hxj⟩ := hxtr
      exact kfold_folds_disjoint n k j i x hk hjk hi hji hxj hxval
    · ext x
      simp only [Finset.mem_union, List.mem_toFinset, Finset.mem_range]
      constructor
      · rintro (hxtr | hxval)
        · rw [kfold_train_mem] at hxtr
          obtain ⟨j, hjk, hji, hxj⟩ := hxtr
          have hm := (kfold_folds_mem n k j x hk hjk).mp hxj
          exact lt_of_lt_of_le hm.2 (kfold_interval_le n k j hk hjk)
        · have hm := (kfold_folds_mem n k i x hk hi).mp hxval
          exact lt_of_lt_of_le hm.2 (kfold_interval_le n k i hk hi)
      · intro hxn
        obtain ⟨j, hjk, hxj⟩ := kfold_folds_cover n k x hk hxn
        by_cases hji : j = i
        · right
          rw [← hji]
          exact hxj
        · left
          rw [kfold_train_mem]
          exact ⟨j, hjk, hji, hxj⟩
  · intro i hi
    rw [kfold_pairs_getD n k i (by omega)]
    show ((kfold_folds n k).getD i []).length = n / k
    rw [kfold_folds_getD n k i hk (by omega), List.length_range']
    unfold foldLen
    rw [if_neg (by omega)]
  · rw [kfold_pairs_getD n k (k - 1) (by omega)]
    show ((kfold_folds n k).getD (k - 1) []).length = n - (k - 1) * (n / k)
    rw [kfold_folds_getD n k (k - 1) hk (by omega), List.length_range']
    unfold foldLen
    rw [if_pos rfl]

/-- Witness for claim C8 at n = 7, k = 3. -/
theorem generate_kfold_ok_witness :
    2 ≤ 3 ∧
    (generate_kfold 7 3 = some (kfold_pairs 7 3) ∧
      kfoldOk 7 3 (kfold_pairs 7 3)) :=
  ⟨by decide, generate_kfold_ok 7 3 (by decide)⟩

end NASLib
